import Mathlib

set_option maxHeartbeats 1000000

/-
Verification development for the trivia-bot core: a shallow embedding of the
question-lifecycle / answer-adjudication code (src/cogs/questions.py,
src/services/db.py, src/services/utils.py, src/services/groq_client.py).
Python strings are modelled as Lean strings over their character lists; the
string methods used by the code (strip, upper, lower, replace, startswith,
find, split-once) are modelled on the ASCII fragment the code exercises.
-/

deriving instance DecidableEq for Except

/-! ### Python string helpers -/

/-- Characters removed by Python `str.strip()` with no argument. -/
def pyIsSpace (c : Char) : Bool :=
  c = ' ' || c = '\t' || c = '\n' || c = '\r' || c = '\x0b' || c = '\x0c'

def pyUpperL (l : List Char) : List Char := l.map Char.toUpper

def pyLowerL (l : List Char) : List Char := l.map Char.toLower

/-- Model of `str.upper()` (ASCII fragment). -/
def pyUpper (s : String) : String := ⟨pyUpperL s.data⟩

/-- Model of `str.lower()` (ASCII fragment). -/
def pyLower (s : String) : String := ⟨pyLowerL s.data⟩

def stripL (l : List Char) : List Char :=
  ((l.dropWhile pyIsSpace).reverse.dropWhile pyIsSpace).reverse

/-- Model of `str.strip()`. -/
def pyStrip (s : String) : String := ⟨stripL s.data⟩

/-- Model of `str.lstrip()`. -/
def pyLStrip (s : String) : String := ⟨s.data.dropWhile pyIsSpace⟩

/-- Model of `str.replace(pat, repl)` (all occurrences, left to right,
non-overlapping), fuelled by the length of the subject string so that it
computes in the kernel.  One unit of fuel is consumed per character of the
subject, which suffices because every step drops at least one character. -/
def replaceF : Nat → List Char → List Char → List Char → List Char
  | 0, _, _, l => l
  | f + 1, pat, repl, l =>
    match l with
    | [] => []
    | c :: rest =>
      if pat ≠ [] ∧ pat.isPrefixOf (c :: rest) then
        repl ++ replaceF f pat repl ((c :: rest).drop pat.length)
      else
        c :: replaceF f pat repl rest

def pyReplace (s pat repl : String) : String :=
  ⟨replaceF s.data.length pat.data repl.data s.data⟩

/-- Model of `str.startswith(pre)`. -/
def pyStartsWith (s pre : String) : Bool := pre.data.isPrefixOf s.data

/-- Model of `str.find(c)` for a single character: index of the first
occurrence, or `none` (Python returns `-1`). -/
def pyFindChar (c : Char) : List Char → Option Nat
  | [] => none
  | a :: l => if a = c then some 0 else (pyFindChar c l).map (· + 1)

/-! ### Python dict helpers (association lists in insertion order) -/

def dictPut {α β : Type} [DecidableEq α] : List (α × β) → α → β → List (α × β)
  | [], k, v => [(k, v)]
  | (k', v') :: rest, k, v =>
    if k' = k then (k, v) :: rest else (k', v') :: dictPut rest k v

def dictGet {α β : Type} [DecidableEq α] : List (α × β) → α → Option β
  | [], _ => none
  | (k', v') :: rest, k => if k' = k then some v' else dictGet rest k

/-- Model of `dict.pop(k, None)`'s effect on the mapping. -/
def dictPop {α β : Type} [DecidableEq α] (m : List (α × β)) (k : α) : List (α × β) :=
  m.filter (fun kv => kv.1 != k)

/-! ### `normalise_answer` (src/services/utils.py, lines 25-40) -/

/-- The tail of `normalise_answer` after the early returns: the
`OPTION `/`CHOICE ` replacements and the numeric mapping. -/
def normaliseRest (token0 : String) : String :=
  let token1 := if pyStartsWith token0 "OPTION " then pyReplace token0 "OPTION " "" else token0
  let token2 := if pyStartsWith token1 "CHOICE " then pyReplace token1 "CHOICE " "" else token1
  if token2 = "1" then "A"
  else if token2 = "2" then "B"
  else if token2 = "3" then "C"
  else if token2 = "4" then "D"
  else token2

/-- `normalise_answer`: convert user supplied answer tokens into canonical
A/B/C/D format. -/
def normalise_answer (answer : String) : String :=
  let token := pyUpper (pyStrip answer)
  if token = "A" || token = "B" || token = "C" || token = "D" then token
  else
    match token.data with
    | c0 :: c1 :: _ =>
      if (c0 = 'A' || c0 = 'B' || c0 = 'C' || c0 = 'D')
          && (c1 = ')' || c1 = '.' || c1 = ' ' || c1 = '-') then
        ⟨[c0]⟩
      else normaliseRest token
    | _ => normaliseRest token

/-! ### `_parse_prompt_metadata` (src/cogs/questions.py, lines 119-133) and the
stored-prompt format (`publish_question`, line 364) -/

/-- One loop body of `_parse_prompt_metadata` applied to the text between
`[` and `]`: if it contains `:`, split once at the first `:`, strip and
lowercase the key, strip the value, and assign into the dict. -/
def segUpdate (meta : List (String × String)) (segment : List Char) :
    List (String × String) :=
  if ':' ∈ segment then
    dictPut meta
      (String.mk (pyLowerL (stripL (segment.takeWhile (fun c => c != ':')))))
      (String.mk (stripL ((segment.dropWhile (fun c => c != ':')).drop 1)))
  else meta

/-- The `while remainder.startswith("[")` loop of `_parse_prompt_metadata`,
fuelled so that it computes in the kernel.  Each iteration consumes one unit
of fuel and at least two characters of the remainder (the `[` and the `]`),
so `length + 1` units of fuel are never exhausted. -/
def parseLoopF : Nat → List (String × String) → List Char →
    List (String × String) × List Char
  | 0, meta, rem => (meta, rem)
  | fuel + 1, meta, rem =>
    match rem with
    | '[' :: tail =>
      match pyFindChar ']' tail with
      | none => (meta, rem)
      | some e =>
        parseLoopF fuel (segUpdate meta (tail.take e))
          ((tail.drop (e + 1)).dropWhile pyIsSpace)
    | _ => (meta, rem)

/-- `_parse_prompt_metadata`: parse the structured `[Key: value]...` prompt
prefix, returning the metadata dict and the remaining prompt text. -/
def parse_prompt_metadata (prompt : String) : List (String × String) × String :=
  let p := parseLoopF (prompt.data.length + 1) [] prompt.data
  (p.1, String.mk p.2)

/-- The stored prompt built by `publish_question` (line 364):
`f"[Difficulty: {difficulty}][Model: {model_name}] {payload.question}"`. -/
def dbPrompt (difficulty modelName question : String) : String :=
  "[Difficulty: " ++ difficulty ++ "][Model: " ++ modelName ++ "] " ++ question

/-- Decidable side condition used for C9: the text neither starts with
whitespace nor with `[` (vacuously true for the empty text). -/
def headOK (l : List Char) : Bool :=
  match l with
  | [] => true
  | c :: _ => !(pyIsSpace c) && !(c = '[')

lemma pyFindChar_append_notmem (body rest : List Char) (h : ']' ∉ body) :
    pyFindChar ']' (body ++ ']' :: rest) = some body.length := by
  induction body with
  | nil => simp [pyFindChar]
  | cons c bs ih =>
    have hc : c ≠ ']' := fun hc => h (hc ▸ List.mem_cons_self c bs)
    have hbs : ']' ∉ bs := fun hm => h (List.mem_cons_of_mem _ hm)
    simp [pyFindChar, hc, ih hbs]

lemma parseLoopF_step (f : Nat) (meta : List (String × String))
    (body rest : List Char) (h : ']' ∉ body) :
    parseLoopF (f + 1) meta ('[' :: (body ++ ']' :: rest)) =
      parseLoopF f (segUpdate meta body) (rest.dropWhile pyIsSpace) := by
  have hf := pyFindChar_append_notmem body rest h
  have htake : (body ++ ']' :: rest).take body.length = body :=
    List.take_left body (']' :: rest)
  have hdrop : (body ++ ']' :: rest).drop (body.length + 1) = rest := by
    have : body ++ ']' :: rest = (body ++ [']']) ++ rest := by
      simp [List.append_assoc]
    rw [this, List.drop_left' (by simp)]
  simp [parseLoopF, hf, htake, hdrop]

lemma parseLoopF_stop (f : Nat) (meta : List (String × String))
    (rem : List Char) (h : ∀ c cs, rem = c :: cs → c ≠ '[') :
    parseLoopF f meta rem = (meta, rem) := by
  cases f with
  | zero => rfl
  | succ f =>
    cases rem with
    | nil => rfl
    | cons c cs =>
      have hc := h c cs rfl
      simp only [parseLoopF]
      split
      · rename_i tail heq
        injection heq with h1 h2
        exact absurd h1 hc
      · rfl

lemma stripL_fixed_parts (d : List Char) (hd : stripL d = d) :
    d.dropWhile pyIsSpace = d ∧ (d.reverse.dropWhile pyIsSpace).reverse = d := by
  have hsub1 : List.Sublist (d.dropWhile pyIsSpace) d := List.dropWhile_sublist _
  have hsub2 : List.Sublist ((d.dropWhile pyIsSpace).reverse.dropWhile pyIsSpace)
      (d.dropWhile pyIsSpace).reverse := List.dropWhile_sublist _
  have hlen : (stripL d).length = d.length := by rw [hd]
  have hlen2 : ((d.dropWhile pyIsSpace).reverse.dropWhile pyIsSpace).length ≤
      (d.dropWhile pyIsSpace).length := by
    simpa using hsub2.length_le
  have hlen1 : (d.dropWhile pyIsSpace).length ≤ d.length := hsub1.length_le
  have hlenS : (stripL d).length =
      ((d.dropWhile pyIsSpace).reverse.dropWhile pyIsSpace).length := by
    simp [stripL]
  have heq1 : (d.dropWhile pyIsSpace).length = d.length := by omega
  have h1 : d.dropWhile pyIsSpace = d := hsub1.eq_of_length heq1
  constructor
  · exact h1
  · have := hd
    rw [stripL, h1] at this
    exact this

lemma stripL_space_cons (d : List Char) (hd : stripL d = d) :
    stripL (' ' :: d) = d := by
  obtain ⟨h1, h2⟩ := stripL_fixed_parts d hd
  have : (' ' :: d).dropWhile pyIsSpace = d.dropWhile pyIsSpace := by
    rw [List.dropWhile_cons, if_pos (show pyIsSpace ' ' = true from rfl)]
  rw [stripL, this, h1, h2]

lemma string_data_append (s t : String) : (s ++ t).data = s.data ++ t.data := rfl

lemma segUpdate_difficulty (meta : List (String × String)) (d : List Char)
    (hd : stripL d = d) :
    segUpdate meta ("Difficulty: ".data ++ d) =
      dictPut meta "difficulty" (String.mk d) := by
  have hmem : ':' ∈ "Difficulty: ".data ++ d :=
    List.mem_append_left _ (by decide)
  have htake : ("Difficulty: ".data ++ d).takeWhile (fun c => c != ':') =
      "Difficulty".data := rfl
  have hdrop : ("Difficulty: ".data ++ d).dropWhile (fun c => c != ':') =
      ':' :: ' ' :: d := rfl
  have hkey : String.mk (pyLowerL (stripL "Difficulty".data)) = "difficulty" := by decide
  have hval : stripL ((':' :: ' ' :: d).drop 1) = d := by
    simpa using stripL_space_cons d hd
  rw [segUpdate, if_pos hmem, htake, hdrop, hval, hkey]

lemma segUpdate_model (meta : List (String × String)) (m : List Char)
    (hm : stripL m = m) :
    segUpdate meta ("Model: ".data ++ m) =
      dictPut meta "model" (String.mk m) := by
  have hmem : ':' ∈ "Model: ".data ++ m :=
    List.mem_append_left _ (by decide)
  have htake : ("Model: ".data ++ m).takeWhile (fun c => c != ':') =
      "Model".data := rfl
  have hdrop : ("Model: ".data ++ m).dropWhile (fun c => c != ':') =
      ':' :: ' ' :: m := rfl
  have hkey : String.mk (pyLowerL (stripL "Model".data)) = "model" := by decide
  have hval : stripL ((':' :: ' ' :: m).drop 1) = m := by
    simpa using stripL_space_cons m hm
  rw [segUpdate, if_pos hmem, htake, hdrop, hval, hkey]

lemma dropWhile_headOK (l : List Char) (h : headOK l = true) :
    l.dropWhile pyIsSpace = l := by
  cases l with
  | nil => rfl
  | cons c cs =>
    simp only [headOK, Bool.and_eq_true, Bool.not_eq_true'] at h
    rw [List.dropWhile_cons, if_neg (by simp [h.1])]

/-- C9 (amended): the difficulty/model provenance prefix round-trips
provided the difficulty and model strings contain no `]` and carry no
leading/trailing whitespace, and the question text neither begins with
whitespace nor with `[`: parsing the stored prompt
`"[Difficulty: d][Model: m] q"` yields metadata mapping `"difficulty"` to
`d` and `"model"` to `m`, and a remainder equal to `q`.  (As literally
stated the claim is false: the parser strips whitespace around the
metadata values and left-strips the remainder, see the counterexample.) -/
theorem C9_prompt_roundtrip (d m q : String)
    (hd1 : ']' ∉ d.data) (hd2 : stripL d.data = d.data)
    (hm1 : ']' ∉ m.data) (hm2 : stripL m.data = m.data)
    (hq : headOK q.data = true) :
    parse_prompt_metadata (dbPrompt d m q) = ([("difficulty", d), ("model", m)], q) := by
  have hdata : (dbPrompt d m q).data =
      '[' :: (("Difficulty: ".data ++ d.data) ++ ']' ::
        ('[' :: (("Model: ".data ++ m.data) ++ ']' :: (' ' :: q.data)))) := by
    show ("[Difficulty: " ++ d ++ "][Model: " ++ m ++ "] " ++ q).data = _
    simp only [string_data_append]
    simp [List.append_assoc, List.cons_append]
  have hbody1 : ']' ∉ "Difficulty: ".data ++ d.data := by
    intro hmem
    rcases List.mem_append.mp hmem with h | h
    · exact absurd h (by decide)
    · exact hd1 h
  have hbody2 : ']' ∉ "Model: ".data ++ m.data := by
    intro hmem
    rcases List.mem_append.mp hmem with h | h
    · exact absurd h (by decide)
    · exact hm1 h
  have hstop : ∀ c cs, q.data = c :: cs → c ≠ '[' := by
    intro c cs hcs hc
    rw [hcs] at hq
    simp only [headOK, Bool.and_eq_true, Bool.not_eq_true'] at hq
    have := hq.2
    simp [hc] at this
  rw [parse_prompt_metadata]
  rw [hdata]
  simp only [List.length_cons]
  rw [parseLoopF_step _ _ _ _ hbody1]
  rw [List.dropWhile_cons, if_neg (by decide)]
  rw [parseLoopF_step _ _ _ _ hbody2]
  rw [List.dropWhile_cons, if_pos (by decide), dropWhile_headOK q.data hq]
  rw [parseLoopF_stop _ _ _ hstop]
  rw [segUpdate_difficulty _ _ hd2, segUpdate_model _ _ hm2]
  simp [dictPut]

/-- Witness for C9 at a concrete prompt. -/
theorem C9_prompt_roundtrip_witness :
    parse_prompt_metadata (dbPrompt "Hard" "llama-3.3-70b-versatile" "What is a mutex?") =
      ([("difficulty", "Hard"), ("model", "llama-3.3-70b-versatile")], "What is a mutex?") :=
  C9_prompt_roundtrip "Hard" "llama-3.3-70b-versatile" "What is a mutex?"
    (by decide) (by decide) (by decide) (by decide) (by decide)

/-- Counterexample to C9 as literally stated: with difficulty `"Easy"`,
model `"gpt"` (neither containing `]`) and question text `" hi"` (which does
not begin with `[`), the parser's remainder is `"hi"`, not `" hi"`: the
trailing `lstrip` of the loop eats the question's leading whitespace. -/
theorem C9_counterexample :
    (parse_prompt_metadata (dbPrompt "Easy" "gpt" " hi")).2 ≠ " hi" ∧
    (parse_prompt_metadata (dbPrompt "Easy" "gpt" " hi")).2 = "hi" := by
  decide

/-! ### Persistent store model (src/services/db.py)

Rows mirror the SQLAlchemy models.  `datetime.utcnow()` is modelled by a
monotone `clock : Nat` carried in the database state (seconds); nullable
columns become `Option`.  `correct_answer` is `Option String` because the
adjudication code guards it with `question.correct_answer or ""`. -/

structure UserRow where
  id : Int
  name : String
  score : Int
  correct : Int
  wrong : Int
  last_answer_time : Option Nat
deriving DecidableEq

structure QuestionRow where
  id : Nat
  message_id : Option Nat
  channel_id : Option Int
  topic : String
  prompt : String
  options : List (String × String)
  correct_answer : Option String
  explanation : Option String
  created_at : Nat
deriving DecidableEq

structure ResponseRow where
  id : Nat
  question_id : Nat
  user_id : Int
  answer : String
  is_correct : Nat
  answered_at : Nat
deriving DecidableEq

structure DBState where
  users : List UserRow
  questions : List QuestionRow
  responses : List ResponseRow
  clock : Nat
deriving DecidableEq

/-- `session.get(User, user_id)`: primary-key lookup. -/
def dbGetUser (db : DBState) (uid : Int) : Option UserRow :=
  db.users.find? (fun u => u.id == uid)

/-- Replace the row with the same primary key, or insert at the end:
the effect of mutating a `session.get` result / `session.add` of a new row. -/
def setUser : List UserRow → UserRow → List UserRow
  | [], u' => [u']
  | u :: rest, u' => if u.id = u'.id then u' :: rest else u :: setUser rest u'

/-- `has_user_answered` (db.py lines 336-343). -/
def has_user_answered (db : DBState) (qid : Nat) (uid : Int) : Bool :=
  db.responses.any (fun r => r.question_id == qid && r.user_id == uid)

/-- The filter of `get_first_correct_response`:
`Response.question_id == qid, Response.is_correct == 1`. -/
def correctResponsesFor (db : DBState) (qid : Nat) : List ResponseRow :=
  db.responses.filter (fun r => r.question_id == qid && r.is_correct == 1)

/-- `order_by(answered_at.asc()).first()`: the element with minimal
timestamp (first-listed wins ties). -/
def minByAnsweredAt (l : List ResponseRow) : Option ResponseRow :=
  l.foldl (fun acc r =>
    match acc with
    | none => some r
    | some b => if r.answered_at < b.answered_at then some r else some b) none

/-- `get_first_correct_response` (db.py lines 346-356). -/
def get_first_correct_response (db : DBState) (qid : Nat) : Option ResponseRow :=
  minByAnsweredAt (correctResponsesFor db qid)

/-- `get_question` (db.py lines 277-282): primary-key lookup. -/
def get_question (db : DBState) (qid : Nat) : Option QuestionRow :=
  db.questions.find? (fun q => q.id == qid)

/-- `order_by(created_at.desc()).first()`: the element with maximal
creation time (first-listed wins ties). -/
def latestByCreatedAt (l : List QuestionRow) : Option QuestionRow :=
  l.foldl (fun acc q =>
    match acc with
    | none => some q
    | some b => if q.created_at > b.created_at then some q else some b) none

/-- `get_latest_question_for_channel` (db.py lines 293-303). -/
def get_latest_question_for_channel (db : DBState) (ch : Int) : Option QuestionRow :=
  latestByCreatedAt (db.questions.filter (fun q => q.channel_id == some ch))

/-- `record_response` (db.py lines 220-253): one transaction that upserts the
user row, bumps its counters, and inserts the Response row.  The
`UNIQUE(question_id, user_id)` table constraint fires at flush time and the
surrounding `get_session` rolls the whole transaction back and re-raises, so
a duplicate pair yields an error and no new state; this is modelled by
checking the constraint and returning `Except.error` with no state. -/
def record_response (db : DBState) (qid : Nat) (uid : Int) (username : String)
    (answer : String) (is_correct : Bool) : Except String (DBState × ResponseRow) :=
  if db.responses.any (fun r => r.question_id == qid && r.user_id == uid) then
    Except.error "UNIQUE constraint failed: uq_question_user"
  else
    let user0 :=
      match dbGetUser db uid with
      | some u => u
      | none =>
        { id := uid
          name := username
          score := 0
          correct := 0
          wrong := 0
          last_answer_time := none }
    let user1 : UserRow :=
      { user0 with
        name := username
        last_answer_time := some db.clock
        score := if is_correct then user0.score + 10 else user0.score
        correct := if is_correct then user0.correct + 1 else user0.correct
        wrong := if is_correct then user0.wrong else user0.wrong + 1 }
    let resp : ResponseRow :=
      { id := db.responses.length + 1
        question_id := qid
        user_id := uid
        answer := answer
        is_correct := if is_correct then 1 else 0
        answered_at := db.clock }
    Except.ok
      ({ users := setUser db.users user1
         questions := db.questions
         responses := db.responses ++ [resp]
         clock := db.clock + 1 }, resp)

lemma dbGetUser_setUser_self (l : List UserRow) (u' : UserRow) :
    (setUser l u').find? (fun u => u.id == u'.id) = some u' := by
  induction l with
  | nil =>
    show List.find? _ [u'] = some u'
    rw [List.find?_cons_of_pos _ (by simp)]
  | cons u rest ih =>
    by_cases hid : u.id = u'.id
    · simp only [setUser, if_pos hid]
      rw [List.find?_cons_of_pos _ (by simp)]
    · simp only [setUser, if_neg hid]
      rw [List.find?_cons_of_neg _ (by simp [hid])]
      exact ih

lemma dbGetUser_setUser_other (l : List UserRow) (u' : UserRow) (uid' : Int)
    (h : uid' ≠ u'.id) :
    (setUser l u').find? (fun u => u.id == uid') = l.find? (fun u => u.id == uid') := by
  induction l with
  | nil =>
    show List.find? _ [u'] = List.find? _ []
    rw [List.find?_cons_of_neg _ (by simp [Ne.symm h])]
  | cons u rest ih =>
    by_cases hid : u.id = u'.id
    · simp only [setUser, if_pos hid]
      rw [List.find?_cons_of_neg _ (by simp [Ne.symm h]),
        List.find?_cons_of_neg _ (by simp [hid, Ne.symm h])]
    · simp only [setUser, if_neg hid]
      cases hcond : (u.id == uid') with
      | true => simp [List.find?_cons, hcond]
      | false => simp [List.find?_cons, hcond, ih]

/-- C5: `record_response`, as a single transaction, (a) creates the User row
when absent, (b) updates the user's name and last-answer time and, exactly
when `is_correct` holds, increments score by exactly 10 and correct count
by 1, otherwise increments wrong count by 1, leaving all other fields of the
user row unchanged, and (c) inserts the Response row; other users and the
questions table are untouched. -/
theorem C5_record_response_transaction (db : DBState) (qid : Nat) (uid : Int)
    (username answer : String) (is_correct : Bool)
    (h : has_user_answered db qid uid = false) :
    ∃ db' resp,
      record_response db qid uid username answer is_correct = .ok (db', resp) ∧
      db'.responses = db.responses ++ [resp] ∧
      resp.question_id = qid ∧ resp.user_id = uid ∧ resp.answer = answer ∧
      resp.is_correct = (if is_correct then 1 else 0) ∧
      resp.answered_at = db.clock ∧
      (∀ u0, dbGetUser db uid = some u0 →
        dbGetUser db' uid = some
          { u0 with
            name := username
            last_answer_time := some db.clock
            score := if is_correct then u0.score + 10 else u0.score
            correct := if is_correct then u0.correct + 1 else u0.correct
            wrong := if is_correct then u0.wrong else u0.wrong + 1 }) ∧
      (dbGetUser db uid = none →
        dbGetUser db' uid = some
          { id := uid
            name := username
            score := if is_correct then 10 else 0
            correct := if is_correct then 1 else 0
            wrong := if is_correct then 0 else 1
            last_answer_time := some db.clock }) ∧
      (∀ uid', uid' ≠ uid → dbGetUser db' uid' = dbGetUser db uid') ∧
      db'.questions = db.questions := by
  rw [has_user_answered] at h
  rw [record_response, if_neg (by simp [h])]
  refine ⟨_, _, rfl, rfl, rfl, rfl, rfl, rfl, rfl, ?_, ?_, ?_, rfl⟩
  · intro u0 hu0
    show (setUser db.users _).find? (fun u => u.id == uid) = _
    rw [hu0]
    have := dbGetUser_setUser_self db.users
      { u0 with
        name := username
        last_answer_time := some db.clock
        score := if is_correct then u0.score + 10 else u0.score
        correct := if is_correct then u0.correct + 1 else u0.correct
        wrong := if is_correct then u0.wrong else u0.wrong + 1 }
    have hid : u0.id = uid := by
      have := List.find?_some hu0
      simpa using this
    simpa [hid] using this
  · intro hu0
    rw [hu0]
    show (setUser db.users _).find? (fun u => u.id == uid) = _
    simpa using dbGetUser_setUser_self db.users
      { id := uid
        name := username
        score := if is_correct then 10 else 0
        correct := if is_correct then 1 else 0
        wrong := if is_correct then 0 else 1
        last_answer_time := some db.clock }
  · intro uid' hne
    show (setUser db.users _).find? (fun u => u.id == uid') =
      db.users.find? (fun u => u.id == uid')
    cases hu : dbGetUser db uid with
    | some u0 =>
      have hid : u0.id = uid := by
        have := List.find?_some hu
        simpa using this
      exact dbGetUser_setUser_other db.users _ uid' (fun hx => hne (hx.trans hid))
    | none =>
      exact dbGetUser_setUser_other db.users _ uid' hne

/-- Witness for C5: recording a correct response in an empty store. -/
theorem C5_record_response_transaction_witness :
    ∃ db' resp,
      record_response ⟨[], [], [], 0⟩ 1 7 "alice" "A" true = .ok (db', resp) ∧
      db'.responses = [] ++ [resp] ∧
      dbGetUser db' 7 = some
        { id := 7
          name := "alice"
          score := 10
          correct := 1
          wrong := 0
          last_answer_time := some 0 } := by
  obtain ⟨db', resp, h1, h2, _, _, _, _, _, _, h9, _, _⟩ :=
    C5_record_response_transaction ⟨[], [], [], 0⟩ 1 7 "alice" "A" true (by decide)
  exact ⟨db', resp, h1, h2, by simpa using h9 rfl⟩

/-- C6: if a Response already exists for a given (question, user) pair,
`record_response` for that pair fails with the uniqueness-constraint error
rather than overwriting, and no successor state is produced (the transaction
rolls back, so scores, counters, name, last-answer time and the response
table are all unchanged). -/
theorem C6_record_response_duplicate_fails (db : DBState) (qid : Nat) (uid : Int)
    (username answer : String) (is_correct : Bool)
    (h : has_user_answered db qid uid = true) :
    record_response db qid uid username answer is_correct =
      .error "UNIQUE constraint failed: uq_question_user" := by
  rw [has_user_answered] at h
  rw [record_response, if_pos (by simp [h])]

/-- Witness for C6: a duplicate (question, user) pair is rejected. -/
theorem C6_record_response_duplicate_fails_witness :
    record_response ⟨[], [], [⟨1, 1, 7, "A", 0, 0⟩], 1⟩ 1 7 "bob" "B" true =
      .error "UNIQUE constraint failed: uq_question_user" :=
  C6_record_response_duplicate_fails ⟨[], [], [⟨1, 1, 7, "A", 0, 0⟩], 1⟩ 1 7 "bob" "B" true
    (by decide)

/-! ### Question cog model (src/cogs/questions.py)

The cog's mutable state is the database handle plus the in-memory
`active_questions` (channel id to question id) and `question_meta`
(question id to metadata dict) registries.  View/message bookkeeping and
message sending are presentation-layer and not modelled. -/

structure AnswerResult where
  status : String
  question : Option QuestionRow
  choice : String
  option_text : String := ""
  explanation : Option String := none
  solver_id : Option Int := none
  correct : Bool := false
  difficulty : Option String := none
  model_name : Option String := none
deriving DecidableEq

structure CogState where
  db : DBState
  active_questions : List (Int × Nat)
  question_meta : List (Nat × List (String × String))
deriving DecidableEq

/-- Python `a or b` for an optional int (`None` and `0` are falsy). -/
def orTruthyInt (a b : Option Int) : Option Int :=
  match a with
  | some v => if v ≠ 0 then some v else b
  | none => b

/-- Python `a or b` for an optional string (`None` and `""` are falsy). -/
def orTruthyStr (a : Option String) (b : String) : String :=
  match a with
  | some s => if s ≠ "" then s else b
  | none => b

/-- Python truthiness of an optional int parameter (`if question_id:`). -/
def truthyNat : Option Nat → Bool
  | some n => n != 0
  | none => false

/-- `_extract_options` (lines 146-157): re-key the stored options dict by
uppercased key.  (The stored options are already a JSON mapping; the
legacy branch for string-encoded JSON is not modelled.) -/
def extract_options (q : QuestionRow) : List (String × String) :=
  q.options.foldl (fun acc kv => dictPut acc (pyUpper kv.1) kv.2) []

/-- `_get_question_metadata` (lines 135-144): parse the structured prompt
prefix, strip it off the question object, merge the non-empty parsed values
into the per-question stored metadata, and record the merged dict. -/
def get_question_metadata (cog : CogState) (q : QuestionRow) :
    List (String × String) × QuestionRow × CogState :=
  let stored := (dictGet cog.question_meta q.id).getD []
  let parsed := parse_prompt_metadata q.prompt
  let q' := if parsed.2 ≠ q.prompt then { q with prompt := parsed.2 } else q
  let stored' := parsed.1.foldl
    (fun st kv => if kv.2 ≠ "" then dictPut st kv.1 kv.2 else st) stored
  (stored', q', { cog with question_meta := dictPut cog.question_meta q.id stored' })

/-- The tracked-question lookup of `_resolve_question_for_channel`
(lines 198-201): `question_id = self.active_questions.get(channel_id)` and,
when truthy, `db.get_question(question_id)`. -/
def resolveTracked (cog : CogState) (ch : Int) : Option QuestionRow :=
  match dictGet cog.active_questions ch with
  | some qid => if qid ≠ 0 then get_question cog.db qid else none
  | none => none

/-- The fallback of `_resolve_question_for_channel` (lines 202-205): if the
tracked question did not load, query the latest question for the channel and
adopt it as active. -/
def resolveAdopt (cog : CogState) (ch : Int) : Option QuestionRow × CogState :=
  match resolveTracked cog ch with
  | some q => (some q, cog)
  | none =>
    match get_latest_question_for_channel cog.db ch with
    | some q =>
      (some q, { cog with active_questions := dictPut cog.active_questions ch q.id })
    | none => (none, cog)

/-- `_resolve_question_for_channel` (lines 197-208): tracked question if it
still loads, else adopt the latest for the channel; metadata processing
(which also strips the prompt prefix) runs on whichever question was found. -/
def resolve_question_for_channel (cog : CogState) (ch : Int) :
    Option QuestionRow × CogState :=
  match resolveAdopt cog ch with
  | (some q, cog1) =>
    let r := get_question_metadata cog1 q
    (some r.2.1, r.2.2)
  | (none, cog1) => (none, cog1)

/-- One channel's pass of `_hydrate_active_questions` (lines 92-97):
fetch the latest question for the channel; if it is fresh
(`(utcnow() - created_at).days < 1`, modelled as
`(now - created_at) / 86400 < 1` over the `Nat` clock -- both judge a
future-dated question fresh) and has no winning response, process its
metadata and register it as the channel's active question. -/
def hydrateStep (now : Nat) (c : CogState) (ch : Int) : CogState :=
  match get_latest_question_for_channel c.db ch with
  | none => c
  | some q =>
    if (now - q.created_at) / 86400 < 1 then
      match get_first_correct_response c.db q.id with
      | some _ => c
      | none =>
        let r := get_question_metadata c q
        { r.2.2 with active_questions := dictPut r.2.2.active_questions ch q.id }
    else c

/-- `_hydrate_active_questions` (lines 89-97), iterating the given channel
ids. -/
def hydrate_active_questions (cog : CogState) (channels : List Int) (now : Nat) :
    CogState :=
  channels.foldl (hydrateStep now) cog

/-- The question-resolution prelude of `_submit_answer` (lines 218-230):
prefer the explicit question id when truthy (adopting the question's own
channel id when that is truthy), else resolve via the channel; yields the
resolved question, the effective channel id, and the possibly-updated
state.  The two early `no_question` exits of the source collapse into the
`none` question here, with identical observable results. -/
def resolveStep (cog : CogState) (channelId : Option Int) (questionId : Option Nat) :
    Option QuestionRow × Option Int × CogState :=
  if truthyNat questionId then
    match get_question cog.db (questionId.getD 0) with
    | none => (none, channelId, cog)
    | some q => (some q, orTruthyInt q.channel_id channelId, cog)
  else
    match channelId with
    | some ch =>
      let p := resolve_question_for_channel cog ch
      (p.1, some ch, p.2)
    | none => (none, channelId, cog)

/-- `_submit_answer` (lines 210-285).  The result is `Except` because
`db.record_response` can raise (the uniqueness constraint propagates);
every other path returns the `AnswerResult` and the successor state. -/
def submit_answer (cog : CogState) (userId : Int) (userName : String)
    (choice0 : String) (channelId : Option Int) (questionId : Option Nat) :
    Except String (AnswerResult × CogState) :=
  let choice := pyUpper choice0
  match resolveStep cog channelId questionId with
  | (none, _, cog1) =>
    .ok ({ status := "no_question", question := none, choice := choice }, cog1)
  | (some _, none, cog1) =>
    .ok ({ status := "no_question", question := none, choice := choice }, cog1)
  | (some q0, some ch, cog1) =>
    let r := get_question_metadata cog1 q0
    let meta := r.1
    let q := r.2.1
    let cog2 := r.2.2
    let difficulty := (dictGet meta "difficulty").getD "Unknown"
    let model_name := (dictGet meta "model").getD "Unknown"
    match get_first_correct_response cog2.db q.id with
    | some fc =>
      .ok ({ status := "already_solved"
             question := some q
             choice := choice
             solver_id := some fc.user_id
             difficulty := some difficulty
             model_name := some model_name },
           { cog2 with active_questions := dictPop cog2.active_questions ch })
    | none =>
      if has_user_answered cog2.db q.id userId then
        .ok ({ status := "already_answered"
               question := some q
               choice := choice
               difficulty := some difficulty
               model_name := some model_name }, cog2)
      else
        let options := extract_options q
        let option_text := (dictGet options choice).getD ""
        let is_corr := choice == pyUpper ((q.correct_answer).getD "")
        match record_response cog2.db q.id userId userName choice is_corr with
        | .error e => .error e
        | .ok (db', _) =>
          if is_corr then
            .ok ({ status := "correct"
                   question := some q
                   choice := choice
                   option_text := option_text
                   explanation := q.explanation
                   solver_id := some userId
                   correct := true
                   difficulty := some difficulty
                   model_name := some model_name },
                 { cog2 with db := db'
                             active_questions := dictPop cog2.active_questions ch })
          else
            .ok ({ status := "incorrect"
                   question := some q
                   choice := choice
                   option_text := option_text
                   difficulty := some difficulty
                   model_name := some model_name },
                 { cog2 with db := db' })

/-- The correct-answer reveal the presentation layer computes from an
incorrect `AnswerResult` (`on_message`, lines 829-838): the stored correct
letter `(question.correct_answer or "A").upper()` and its option text. -/
def revealCorrect (result : AnswerResult) : Option (String × String) :=
  match result.question with
  | none => none
  | some q =>
    let options := extract_options q
    let correct_letter := pyUpper (orTruthyStr q.correct_answer "A")
    some (correct_letter, (dictGet options correct_letter).getD "No option text recorded.")

/-! ### Structural lemmas about the cog operations -/

lemma get_question_metadata_db (cog : CogState) (q : QuestionRow) :
    ((get_question_metadata cog q).2.2).db = cog.db := rfl

lemma get_question_metadata_active (cog : CogState) (q : QuestionRow) :
    ((get_question_metadata cog q).2.2).active_questions = cog.active_questions := rfl

lemma get_question_metadata_fields (cog : CogState) (q : QuestionRow) :
    ((get_question_metadata cog q).2.1).id = q.id ∧
    ((get_question_metadata cog q).2.1).channel_id = q.channel_id ∧
    ((get_question_metadata cog q).2.1).options = q.options ∧
    ((get_question_metadata cog q).2.1).correct_answer = q.correct_answer ∧
    ((get_question_metadata cog q).2.1).explanation = q.explanation ∧
    ((get_question_metadata cog q).2.1).created_at = q.created_at := by
  simp only [get_question_metadata]
  split <;> simp

lemma resolveAdopt_spec (cog : CogState) (ch : Int) :
    (resolveAdopt cog ch).2.db = cog.db ∧
    (resolveAdopt cog ch).2.question_meta = cog.question_meta ∧
    ((resolveAdopt cog ch).2.active_questions = cog.active_questions ∨
      ∃ q, (resolveAdopt cog ch).1 = some q ∧
        (resolveAdopt cog ch).2.active_questions =
          dictPut cog.active_questions ch q.id) := by
  unfold resolveAdopt
  rcases resolveTracked cog ch with _ | q
  · rcases get_latest_question_for_channel cog.db ch with _ | q
    · exact ⟨rfl, rfl, Or.inl rfl⟩
    · exact ⟨rfl, rfl, Or.inr ⟨q, rfl, rfl⟩⟩
  · exact ⟨rfl, rfl, Or.inl rfl⟩

lemma resolve_qfc_spec (cog : CogState) (ch : Int) :
    (resolve_question_for_channel cog ch).2.db = cog.db ∧
    ((resolve_question_for_channel cog ch).2.active_questions = cog.active_questions ∨
      ∃ q, (resolve_question_for_channel cog ch).1 = some q ∧
        (resolve_question_for_channel cog ch).2.active_questions =
          dictPut cog.active_questions ch q.id) := by
  obtain ⟨h1, _, h3⟩ := resolveAdopt_spec cog ch
  unfold resolve_question_for_channel
  rcases hra : resolveAdopt cog ch with ⟨_ | q, cog1⟩ <;> rw [hra] at h1 h3
  · exact ⟨h1, by simpa using h3⟩
  · refine ⟨by simpa [get_question_metadata_db] using h1, ?_⟩
    have hid : ((get_question_metadata cog1 q).2.1).id = q.id :=
      (get_question_metadata_fields cog1 q).1
    rcases h3 with h3 | ⟨q2, hq2, hact⟩
    · exact Or.inl (by simpa [get_question_metadata_active] using h3)
    · simp only [Option.some.injEq] at hq2
      subst hq2
      refine Or.inr ⟨(get_question_metadata cog1 q).2.1, rfl, ?_⟩
      rw [hid]
      simpa [get_question_metadata_active] using hact

lemma resolveStep_spec (cog : CogState) (channelId : Option Int)
    (questionId : Option Nat) :
    (resolveStep cog channelId questionId).2.2.db = cog.db ∧
    ((resolveStep cog channelId questionId).2.2.active_questions =
        cog.active_questions ∨
      ∃ q ch, (resolveStep cog channelId questionId).1 = some q ∧
        (resolveStep cog channelId questionId).2.1 = some ch ∧
        (resolveStep cog channelId questionId).2.2.active_questions =
          dictPut cog.active_questions ch q.id) := by
  unfold resolveStep
  by_cases ht : truthyNat questionId = true
  · rw [if_pos ht]
    rcases get_question cog.db (questionId.getD 0) with _ | q
    · exact ⟨rfl, Or.inl rfl⟩
    · exact ⟨rfl, Or.inl rfl⟩
  · rw [if_neg ht]
    rcases channelId with _ | ch
    · exact ⟨rfl, Or.inl rfl⟩
    · obtain ⟨h1, h3⟩ := resolve_qfc_spec cog ch
      refine ⟨h1, ?_⟩
      rcases h3 with h3 | ⟨q, hq, hact⟩
      · exact Or.inl h3
      · exact Or.inr ⟨q, ch, hq, rfl, hact⟩

lemma record_response_ok_inv (db : DBState) (qid : Nat) (uid : Int)
    (username answer : String) (is_correct : Bool) (db' : DBState)
    (resp : ResponseRow)
    (h : record_response db qid uid username answer is_correct = .ok (db', resp)) :
    db'.responses = db.responses ++ [resp] ∧ db'.questions = db.questions ∧
    resp.question_id = qid ∧ resp.user_id = uid ∧
    resp.is_correct = (if is_correct then 1 else 0) ∧
    resp.answered_at = db.clock := by
  rw [record_response] at h
  split at h
  · exact absurd h (by simp)
  · simp only [Except.ok.injEq, Prod.mk.injEq] at h
    obtain ⟨h1, h2⟩ := h
    subst h1
    subst h2
    exact ⟨rfl, rfl, rfl, rfl, rfl, rfl⟩

lemma record_response_ok_of_not_answered (db : DBState) (qid : Nat) (uid : Int)
    (username answer : String) (is_correct : Bool)
    (h : has_user_answered db qid uid = false) :
    ∃ pr, record_response db qid uid username answer is_correct = .ok pr := by
  rw [has_user_answered] at h
  rw [record_response, if_neg (by simp [h])]
  exact ⟨_, rfl⟩

/-- Inversion principle for `submit_answer`: every successful call has one of
the four outcome shapes, with the corresponding state effects. -/
lemma submit_answer_spec (cog : CogState) (userId : Int)
    (userName choice0 : String) (channelId : Option Int)
    (questionId : Option Nat) (res : AnswerResult) (s' : CogState)
    (h : submit_answer cog userId userName choice0 channelId questionId =
      .ok (res, s')) :
    (res.status = "no_question" ∧ res.question = none ∧ s'.db = cog.db ∧
      s'.active_questions = cog.active_questions) ∨
    ∃ q0 ch cog1 meta q cog2,
      resolveStep cog channelId questionId = (some q0, some ch, cog1) ∧
      get_question_metadata cog1 q0 = (meta, q, cog2) ∧
      cog2.db = cog.db ∧
      q.id = q0.id ∧ q.channel_id = q0.channel_id ∧ q.options = q0.options ∧
      q.correct_answer = q0.correct_answer ∧ q.explanation = q0.explanation ∧
      (cog2.active_questions = cog.active_questions ∨
        cog2.active_questions = dictPut cog.active_questions ch q.id) ∧
      res.question = some q ∧
      ((∃ fc, get_first_correct_response cog.db q.id = some fc ∧
          res.status = "already_solved" ∧ res.solver_id = some fc.user_id ∧
          s'.db = cog.db ∧
          s'.active_questions = dictPop cog2.active_questions ch) ∨
       (get_first_correct_response cog.db q.id = none ∧
          has_user_answered cog.db q.id userId = true ∧
          res.status = "already_answered" ∧ s'.db = cog.db ∧
          s'.active_questions = cog2.active_questions) ∨
       (∃ db' resp,
          get_first_correct_response cog.db q.id = none ∧
          has_user_answered cog.db q.id userId = false ∧
          record_response cog.db q.id userId userName (pyUpper choice0)
            (pyUpper choice0 == pyUpper (q.correct_answer.getD "")) =
            .ok (db', resp) ∧
          s'.db = db' ∧
          (((pyUpper choice0 == pyUpper (q.correct_answer.getD "")) = true ∧
              res.status = "correct" ∧ res.correct = true ∧
              res.solver_id = some userId ∧
              s'.active_questions = dictPop cog2.active_questions ch) ∨
           ((pyUpper choice0 == pyUpper (q.correct_answer.getD "")) = false ∧
              res.status = "incorrect" ∧ res.correct = false ∧
              s'.active_questions = cog2.active_questions)))) := by
  obtain ⟨hrsdb, hrsact⟩ := resolveStep_spec cog channelId questionId
  simp only [submit_answer] at h
  split at h
  · rename_i fst cog1 heq
    have hr1 : (resolveStep cog channelId questionId).1 = none := by rw [heq]
    have hr22 : (resolveStep cog channelId questionId).2.2 = cog1 := by rw [heq]
    rw [hr22] at hrsdb hrsact
    simp only [Except.ok.injEq, Prod.mk.injEq] at h
    obtain ⟨hres, hs⟩ := h
    subst hres
    subst hs
    refine Or.inl ⟨rfl, rfl, hrsdb, ?_⟩
    rcases hrsact with hl | ⟨qq, cc, hq', _, _⟩
    · exact hl
    · rw [hr1] at hq'
      exact absurd hq' (by simp)
  · rename_i val cog1 heq
    have hr21 : (resolveStep cog channelId questionId).2.1 = none := by rw [heq]
    have hr22 : (resolveStep cog channelId questionId).2.2 = cog1 := by rw [heq]
    rw [hr22] at hrsdb hrsact
    simp only [Except.ok.injEq, Prod.mk.injEq] at h
    obtain ⟨hres, hs⟩ := h
    subst hres
    subst hs
    refine Or.inl ⟨rfl, rfl, hrsdb, ?_⟩
    rcases hrsact with hl | ⟨qq, cc, _, hch', _⟩
    · exact hl
    · rw [hr21] at hch'
      exact absurd hch' (by simp)
  · rename_i q0 ch cog1 heq
    have hr1 : (resolveStep cog channelId questionId).1 = some q0 := by rw [heq]
    have hr21 : (resolveStep cog channelId questionId).2.1 = some ch := by rw [heq]
    have hr22 : (resolveStep cog channelId questionId).2.2 = cog1 := by rw [heq]
    rw [hr22] at hrsdb hrsact
    rw [hr1, hr21] at hrsact
    obtain ⟨hfid, hfch, hfopt, hfca, hfex, _⟩ :=
      get_question_metadata_fields cog1 q0
    have hgdb := get_question_metadata_db cog1 q0
    have hgact := get_question_metadata_active cog1 q0
    rcases hgqm : get_question_metadata cog1 q0 with ⟨meta, q, cog2⟩
    have hm1 : (get_question_metadata cog1 q0).1 = meta := by rw [hgqm]
    have hm2 : (get_question_metadata cog1 q0).2.1 = q := by rw [hgqm]
    have hm3 : (get_question_metadata cog1 q0).2.2 = cog2 := by rw [hgqm]
    rw [hm2, hm3, hm1] at h
    rw [hm2] at hfid hfch hfopt hfca hfex
    rw [hm3] at hgdb hgact
    have hdb2 : cog2.db = cog.db := hgdb.trans hrsdb
    have hact2 : cog2.active_questions = cog.active_questions ∨
        cog2.active_questions = dictPut cog.active_questions ch q.id := by
      rw [hgact]
      rcases hrsact with hl | ⟨q', ch', hq', hch', hput⟩
      · exact Or.inl hl
      · simp only [Option.some.injEq] at hq' hch'
        subst hq'
        subst hch'
        exact Or.inr (by rw [hfid]; exact hput)
    refine Or.inr ⟨q0, ch, cog1, meta, q, cog2, heq, hgqm, hdb2,
      hfid, hfch, hfopt, hfca, hfex, hact2, ?_⟩
    split at h
    · rename_i fc hfc
      simp only [Except.ok.injEq, Prod.mk.injEq] at h
      obtain ⟨hres, hs⟩ := h
      subst hres
      subst hs
      exact ⟨rfl, Or.inl ⟨fc, by rw [← hdb2]; exact hfc, rfl, rfl, hdb2, rfl⟩⟩
    · rename_i hfc
      split at h
      · rename_i hans
        simp only [Except.ok.injEq, Prod.mk.injEq] at h
        obtain ⟨hres, hs⟩ := h
        subst hres
        subst hs
        refine ⟨rfl, Or.inr (Or.inl ⟨?_, ?_, rfl, hdb2, rfl⟩)⟩
        · rw [← hdb2]; exact hfc
        · rw [← hdb2]; exact hans
      · rename_i hans
        rw [Bool.not_eq_true] at hans
        split at h
        · simp at h
        · rename_i db' snd heq3
          split at h
          · rename_i hic
            simp only [Except.ok.injEq, Prod.mk.injEq] at h
            obtain ⟨hres, hs⟩ := h
            subst hres
            subst hs
            refine ⟨rfl, Or.inr (Or.inr ⟨db', snd, ?_, ?_, ?_, rfl,
              Or.inl ⟨hic, rfl, rfl, rfl, rfl⟩⟩)⟩
            · rw [← hdb2]; exact hfc
            · rw [← hdb2]; exact hans
            · rw [← hdb2]; exact heq3
          · rename_i hic
            rw [Bool.not_eq_true] at hic
            simp only [Except.ok.injEq, Prod.mk.injEq] at h
            obtain ⟨hres, hs⟩ := h
            subst hres
            subst hs
            refine ⟨rfl, Or.inr (Or.inr ⟨db', snd, ?_, ?_, ?_, rfl,
              Or.inr ⟨hic, rfl, rfl, rfl⟩⟩)⟩
            · rw [← hdb2]; exact hfc
            · rw [← hdb2]; exact hans
            · rw [← hdb2]; exact heq3

lemma dictGet_put_self {α β : Type} [DecidableEq α] (m : List (α × β)) (k : α) (v : β) :
    dictGet (dictPut m k v) k = some v := by
  induction m with
  | nil => simp [dictPut, dictGet]
  | cons kv rest ih =>
    by_cases hk : kv.1 = k
    · simp [dictPut, hk, dictGet]
    · simp [dictPut, hk, dictGet, ih]

lemma dictGet_put_other {α β : Type} [DecidableEq α] (m : List (α × β)) (k k' : α)
    (v : β) (h : k' ≠ k) : dictGet (dictPut m k v) k' = dictGet m k' := by
  induction m with
  | nil => simp [dictPut, dictGet, Ne.symm h]
  | cons kv rest ih =>
    by_cases hk : kv.1 = k
    · simp [dictPut, hk, dictGet, Ne.symm h, hk ▸ (Ne.symm h)]
    · simp only [dictPut, if_neg hk, dictGet]
      by_cases hk2 : kv.1 = k'
      · simp [hk2]
      · simp [hk2, ih]

lemma dictGet_pop_self {α β : Type} [DecidableEq α] (m : List (α × β)) (k : α) :
    dictGet (dictPop m k) k = none := by
  induction m with
  | nil => simp [dictPop, dictGet]
  | cons kv rest ih =>
    by_cases hk : kv.1 = k
    · simpa [dictPop, hk] using ih
    · simp only [dictPop, List.filter_cons]
      rw [if_pos (by simp [hk])]
      simpa [dictGet, hk, dictPop] using ih

lemma dictGet_pop_other {α β : Type} [DecidableEq α] (m : List (α × β)) (k k' : α)
    (h : k' ≠ k) : dictGet (dictPop m k) k' = dictGet m k' := by
  induction m with
  | nil => simp [dictPop, dictGet]
  | cons kv rest ih =>
    by_cases hk : kv.1 = k
    · have hk2 : kv.1 ≠ k' := by rw [hk]; exact Ne.symm h
      simp only [dictPop, List.filter_cons]
      rw [if_neg (by simp [hk])]
      simpa [dictGet, hk2, dictPop] using ih
    · simp only [dictPop, List.filter_cons]
      rw [if_pos (by simp [hk])]
      by_cases hk2 : kv.1 = k'
      · simp [dictGet, hk2]
      · simpa [dictGet, hk2, dictPop] using ih

lemma dictPop_put {α β : Type} [DecidableEq α] (m : List (α × β)) (k : α) (v : β) :
    dictPop (dictPut m k v) k = dictPop m k := by
  induction m with
  | nil =>
    simp only [dictPut, dictPop, List.filter_cons, List.filter_nil]
    rw [if_neg (by simp)]
  | cons kv rest ih =>
    by_cases hk : kv.1 = k
    · simp only [dictPut, if_pos hk, dictPop, List.filter_cons]
      rw [if_neg (by simp), if_neg (by simp [hk])]
    · simp only [dictPut, if_neg hk, dictPop, List.filter_cons]
      rw [if_pos (by simp [hk]), if_pos (by simp [hk])]
      simpa [dictPop] using ih

/-- `_submit_answer` never raises: the `has_user_answered` guard runs before
`record_response`, so the uniqueness constraint cannot fire. -/
lemma submit_answer_total (cog : CogState) (userId : Int)
    (userName choice0 : String) (channelId : Option Int) (questionId : Option Nat) :
    ∃ out, submit_answer cog userId userName choice0 channelId questionId =
      .ok out := by
  cases hres : submit_answer cog userId userName choice0 channelId questionId with
  | ok out => exact ⟨out, rfl⟩
  | error e =>
    exfalso
    simp only [submit_answer] at hres
    split at hres
    · simp at hres
    · simp at hres
    · rename_i q0 ch cog1 heq
      split at hres
      · simp at hres
      · split at hres
        · simp at hres
        · rename_i hfc hans
          rw [Bool.not_eq_true] at hans
          obtain ⟨pr, hpr⟩ := record_response_ok_of_not_answered
            (get_question_metadata cog1 q0).2.2.db
            (get_question_metadata cog1 q0).2.1.id userId userName
            (pyUpper choice0)
            (pyUpper choice0 == pyUpper
              ((get_question_metadata cog1 q0).2.1.correct_answer.getD "")) hans
          rcases pr with ⟨db2, resp⟩
          rw [hpr] at hres
          split at hres
          · simp_all
          · split at hres <;> simp at hres

/-- C10: adjudication is insensitive to the case (and presence) of the stored
correct letter: a submission that reaches scoring is judged correct exactly
when the uppercased submitted choice equals the uppercased stored
`correct_answer` (so a question stored with lowercase `"b"` matches the
choice `"B"`), a question whose `correct_answer` is null or empty matches no
canonical choice (every such submission is judged incorrect), and
`_submit_answer` never raises. -/
theorem C10_case_insensitive_adjudication (cog : CogState) (userId : Int)
    (userName choice0 : String) (channelId : Option Int)
    (questionId : Option Nat) :
    (∃ out, submit_answer cog userId userName choice0 channelId questionId =
      .ok out) ∧
    (∀ res s' q,
      submit_answer cog userId userName choice0 channelId questionId =
        .ok (res, s') →
      res.question = some q →
      (res.status = "correct" ∨ res.status = "incorrect") →
      ((res.status = "correct" ↔
          pyUpper choice0 = pyUpper (q.correct_answer.getD "")) ∧
       ((choice0 = "A" ∨ choice0 = "B" ∨ choice0 = "C" ∨ choice0 = "D") →
          q.correct_answer.getD "" = "" → res.status = "incorrect"))) := by
  refine ⟨submit_answer_total cog userId userName choice0 channelId questionId, ?_⟩
  intro res s' q hsub hq hst
  rcases submit_answer_spec cog userId userName choice0 channelId questionId
      res s' hsub with ⟨_, hnone, _, _⟩ |
    ⟨q0, ch, cog1, meta, q', cog2, _, _, _, _, _, _, _, _, _, hq', hbr⟩
  · rw [hnone] at hq
    exact absurd hq (by simp)
  · rw [hq'] at hq
    simp only [Option.some.injEq] at hq
    subst hq
    rcases hbr with ⟨fc, _, hstat, _⟩ | ⟨_, _, hstat, _⟩ |
      ⟨db2, resp, _, _, _, _, ⟨hic, hstat, _⟩ | ⟨hic, hstat, _⟩⟩
    · rw [hstat] at hst
      rcases hst with hst | hst <;> exact absurd hst (by decide)
    · rw [hstat] at hst
      rcases hst with hst | hst <;> exact absurd hst (by decide)
    · constructor
      · rw [hstat]
        simp only [true_iff]
        exact eq_of_beq hic
      · intro hcan hempty
        have := eq_of_beq hic
        rw [hempty] at this
        rcases hcan with hc | hc | hc | hc <;> rw [hc] at this <;>
          exact absurd this (by decide)
    · constructor
      · rw [hstat]
        constructor
        · intro hfalse
          exact absurd hfalse (by decide)
        · intro heq
          rw [heq] at hic
          simp at hic
      · intro _ _
        exact hstat

/-- C10 witness: a question stored with lowercase `correct_answer = "b"`
still matches the submitted choice `"B"`. -/
def C10wq : QuestionRow :=
  ⟨1, none, some 5, "t", "p", [("A", "x"), ("B", "y")], some "b", none, 0⟩

def C10wcog : CogState := ⟨⟨[], [C10wq], [], 0⟩, [(5, 1)], []⟩

def C10wres : AnswerResult :=
  ⟨"correct", some C10wq, "B", "y", none, some 7, true, some "Unknown", some "Unknown"⟩

def C10ws : CogState :=
  ⟨⟨[⟨7, "u", 10, 1, 0, some 0⟩], [C10wq], [⟨1, 1, 7, "B", 1, 0⟩], 1⟩, [], [(1, [])]⟩

/-- Witness for C10 at a concrete submission against a lowercase stored answer. -/
theorem C10_case_insensitive_adjudication_witness :
    (C10wres.status = "correct" ↔ pyUpper "B" = pyUpper (C10wq.correct_answer.getD "")) ∧
    ((("B" : String) = "A" ∨ ("B" : String) = "B" ∨ ("B" : String) = "C" ∨
        ("B" : String) = "D") →
      C10wq.correct_answer.getD "" = "" → C10wres.status = "incorrect") :=
  (C10_case_insensitive_adjudication C10wcog 7 "u" "B" (some 5) none).2
    C10wres C10ws C10wq (by decide) (by decide) (Or.inl (by decide))

/-- C8 (amended): when a submission is adjudicated Correct, the submitting
channel's entry in the active-question tracking map is removed and every
other channel's entry is unchanged.  When it is adjudicated Incorrect, no
entry is removed: every other channel's entry is unchanged, and the
submitting channel's entry is unchanged unless the in-memory index had no
live entry and resolution fell back to adopting the latest stored question,
in which case the answered question's id remains registered.  The Incorrect
outcome carries the question record from which the presentation layer
reveals the correct letter and its option text.  (As literally stated the
claim is false: the resolution fallback can add the submitting channel's
entry on an Incorrect submission, see the counterexample.) -/
theorem C8_active_tracking (cog : CogState) (userId : Int)
    (userName choice0 : String) (channelId : Option Int)
    (questionId : Option Nat) (res : AnswerResult) (s' : CogState)
    (h : submit_answer cog userId userName choice0 channelId questionId =
      .ok (res, s')) :
    (res.status = "correct" →
      ∃ ch, (resolveStep cog channelId questionId).2.1 = some ch ∧
        s'.active_questions = dictPop cog.active_questions ch ∧
        dictGet s'.active_questions ch = none ∧
        (∀ ch', ch' ≠ ch →
          dictGet s'.active_questions ch' = dictGet cog.active_questions ch')) ∧
    (res.status = "incorrect" →
      (∃ ch, (resolveStep cog channelId questionId).2.1 = some ch ∧
        (∀ ch', ch' ≠ ch →
          dictGet s'.active_questions ch' = dictGet cog.active_questions ch') ∧
        (dictGet s'.active_questions ch = dictGet cog.active_questions ch ∨
          ∃ q, res.question = some q ∧
            dictGet s'.active_questions ch = some q.id)) ∧
      (∃ q, res.question = some q ∧
        revealCorrect res = some (pyUpper (orTruthyStr q.correct_answer "A"),
          (dictGet (extract_options q)
            (pyUpper (orTruthyStr q.correct_answer "A"))).getD
            "No option text recorded."))) := by
  rcases submit_answer_spec cog userId userName choice0 channelId questionId
      res s' h with ⟨hstat, _, _, _⟩ |
    ⟨q0, ch, cog1, meta, q, cog2, hrs, _, _, _, _, _, _, _, hact2, hq, hbr⟩
  · constructor <;> intro hs <;> rw [hstat] at hs <;> exact absurd hs (by decide)
  · have hch : (resolveStep cog channelId questionId).2.1 = some ch := by rw [hrs]
    rcases hbr with ⟨fc, _, hstat, _, _, _⟩ | ⟨_, _, hstat, _, _⟩ |
      ⟨db2, resp, _, _, _, _, ⟨hic, hstat, _, _, hact⟩ | ⟨hic, hstat, _, hact⟩⟩
    · constructor <;> intro hs <;> rw [hstat] at hs <;> exact absurd hs (by decide)
    · constructor <;> intro hs <;> rw [hstat] at hs <;> exact absurd hs (by decide)
    · have hpop : s'.active_questions = dictPop cog.active_questions ch := by
        rw [hact]
        rcases hact2 with h2 | h2
        · rw [h2]
        · rw [h2, dictPop_put]
      constructor
      · intro _
        refine ⟨ch, hch, hpop, ?_, ?_⟩
        · rw [hpop]
          exact dictGet_pop_self _ _
        · intro ch' hne
          rw [hpop]
          exact dictGet_pop_other _ _ _ hne
      · intro hs
        rw [hstat] at hs
        exact absurd hs (by decide)
    · constructor
      · intro hs
        rw [hstat] at hs
        exact absurd hs (by decide)
      · intro _
        refine ⟨⟨ch, hch, ?_, ?_⟩, q, hq, by simp [revealCorrect, hq]⟩
        · intro ch' hne
          rw [hact]
          rcases hact2 with h2 | h2
          · rw [h2]
          · rw [h2]
            exact dictGet_put_other _ _ _ _ hne
        · rw [hact]
          rcases hact2 with h2 | h2
          · rw [h2]
            exact Or.inl rfl
          · rw [h2]
            exact Or.inr ⟨q, hq, dictGet_put_self _ _ _⟩

def C8wq : QuestionRow :=
  ⟨1, none, some 5, "t", "p", [("A", "x"), ("B", "y")], some "A", none, 0⟩

def C8wcog : CogState := ⟨⟨[], [C8wq], [], 0⟩, [(5, 1)], []⟩

def C8wres : AnswerResult :=
  ⟨"correct", some C8wq, "A", "x", none, some 7, true, some "Unknown", some "Unknown"⟩

def C8ws : CogState :=
  ⟨⟨[⟨7, "u", 10, 1, 0, some 0⟩], [C8wq], [⟨1, 1, 7, "A", 1, 0⟩], 1⟩, [], [(1, [])]⟩

/-- Witness for C8: a concrete correct submission clears exactly the
submitting channel's tracking entry. -/
theorem C8_active_tracking_witness :
    ∃ ch, (resolveStep C8wcog (some 5) none).2.1 = some ch ∧
      C8ws.active_questions = dictPop C8wcog.active_questions ch ∧
      dictGet C8ws.active_questions ch = none ∧
      (∀ ch', ch' ≠ ch →
        dictGet C8ws.active_questions ch' = dictGet C8wcog.active_questions ch') :=
  (C8_active_tracking C8wcog 7 "u" "A" (some 5) none C8wres C8ws (by decide)).1
    (by decide)

def C8cq : QuestionRow :=
  ⟨1, none, some 5, "t", "p", [("A", "x"), ("B", "y")], some "A", none, 0⟩

def C8ccog : CogState := ⟨⟨[], [C8cq], [], 0⟩, [], []⟩

def C8cres : AnswerResult :=
  ⟨"incorrect", some C8cq, "B", "y", none, none, false, some "Unknown", some "Unknown"⟩

def C8cs : CogState :=
  ⟨⟨[⟨7, "u", 0, 0, 1, some 0⟩], [C8cq], [⟨1, 1, 7, "B", 0, 0⟩], 1⟩, [(5, 1)], [(1, [])]⟩

/-- Counterexample to C8 as literally stated: an Incorrect submission whose
resolution fell back to adopting the latest stored question (the in-memory
index was empty) leaves the active-question tracking map changed, not
unchanged: the submitting channel's entry is now registered. -/
theorem C8_counterexample :
    submit_answer C8ccog 7 "u" "B" (some 5) none = .ok (C8cres, C8cs) ∧
    C8cres.status = "incorrect" ∧
    C8ccog.active_questions = [] ∧ C8cs.active_questions = [(5, 1)] ∧
    C8cs.active_questions ≠ C8ccog.active_questions := by
  decide

/-! ### Reachability: states produced by sequences of answer submissions -/

/-- Responses for one (question, user) pair, as filtered by
`has_user_answered`. -/
def pairResponsesFor (db : DBState) (qid : Nat) (uid : Int) : List ResponseRow :=
  db.responses.filter (fun r => r.question_id == qid && r.user_id == uid)

lemma has_user_answered_eq_false_iff (db : DBState) (qid : Nat) (uid : Int) :
    has_user_answered db qid uid = false ↔ pairResponsesFor db qid uid = [] := by
  unfold has_user_answered pairResponsesFor
  simp [List.any_eq_false, List.filter_eq_nil_iff]

lemma minByAnsweredAt_cons_aux (l : List ResponseRow) :
    ∀ b : ResponseRow,
      ∃ c, (l.foldl (fun acc r =>
        match acc with
        | none => some r
        | some b => if r.answered_at < b.answered_at then some r else some b)
        (some b)) = some c := by
  induction l with
  | nil => intro b; exact ⟨b, rfl⟩
  | cons r rest ih =>
    intro b
    by_cases hlt : r.answered_at < b.answered_at
    · simpa [List.foldl_cons, hlt] using ih r
    · simpa [List.foldl_cons, hlt] using ih b

lemma get_first_none_iff (db : DBState) (qid : Nat) :
    get_first_correct_response db qid = none ↔ correctResponsesFor db qid = [] := by
  unfold get_first_correct_response minByAnsweredAt
  cases hl : correctResponsesFor db qid with
  | nil => simp
  | cons r rest =>
    obtain ⟨c, hc⟩ := minByAnsweredAt_cons_aux rest r
    simp only [List.foldl_cons]
    rw [hc]
    simp

lemma get_first_of_single (db : DBState) (qid : Nat) (r : ResponseRow)
    (h : correctResponsesFor db qid = [r]) :
    get_first_correct_response db qid = some r := by
  unfold get_first_correct_response minByAnsweredAt
  rw [h]
  rfl

lemma length_le_one_mem (l : List ResponseRow) (r : ResponseRow)
    (hlen : l.length ≤ 1) (hmem : r ∈ l) : l = [r] := by
  cases l with
  | nil => simp at hmem
  | cons a rest =>
    cases rest with
    | nil =>
      simp only [List.mem_singleton] at hmem
      rw [hmem]
    | cons b rest2 => simp at hlen

/-- Responses-table evolution under one `submit_answer` call: either nothing
is recorded, or exactly one Response row is appended for the resolved
question and submitting user, and only after both terminal-state guards
passed on the pre-state. -/
lemma submit_db_responses (cog : CogState) (userId : Int)
    (userName choice0 : String) (channelId : Option Int)
    (questionId : Option Nat) (res : AnswerResult) (s' : CogState)
    (h : submit_answer cog userId userName choice0 channelId questionId =
      .ok (res, s')) :
    s'.db.responses = cog.db.responses ∨
    ∃ q resp, res.question = some q ∧
      get_first_correct_response cog.db q.id = none ∧
      has_user_answered cog.db q.id userId = false ∧
      s'.db.responses = cog.db.responses ++ [resp] ∧
      resp.question_id = q.id ∧ resp.user_id = userId := by
  rcases submit_answer_spec cog userId userName choice0 channelId questionId
      res s' h with ⟨_, _, hdb, _⟩ |
    ⟨q0, ch, cog1, meta, q, cog2, _, _, _, _, _, _, _, _, _, hq, hbr⟩
  · exact Or.inl (by rw [hdb])
  · rcases hbr with ⟨fc, _, _, _, hdb, _⟩ | ⟨_, _, _, hdb, _⟩ |
      ⟨db2, resp, hfc, hans, hrec, hdb, _⟩
    · exact Or.inl (by rw [hdb])
    · exact Or.inl (by rw [hdb])
    · obtain ⟨hresp, _, hqid, huid, _, _⟩ :=
        record_response_ok_inv _ _ _ _ _ _ _ _ hrec
      exact Or.inr ⟨q, resp, hq, hfc, hans, by rw [hdb, hresp], hqid, huid⟩

/-- States reachable from a response-free start by any sequence of
`_submit_answer` calls (the adjudicator is synchronous, so the event loop
serialises calls; interleavings are sequences of whole calls). -/
inductive Reachable : CogState → Prop where
  | init : ∀ s : CogState, s.db.responses = [] → Reachable s
  | step : ∀ (s : CogState) (userId : Int) (userName choice : String)
      (channelId : Option Int) (questionId : Option Nat) (res : AnswerResult)
      (s' : CogState), Reachable s →
      submit_answer s userId userName choice channelId questionId =
        .ok (res, s') →
      Reachable s'

lemma reachable_response_invariants (s : CogState) (h : Reachable s) :
    (∀ qid, (correctResponsesFor s.db qid).length ≤ 1) ∧
    (∀ qid uid, (pairResponsesFor s.db qid uid).length ≤ 1) := by
  induction h with
  | init s h0 =>
    refine ⟨fun qid => ?_, fun qid uid => ?_⟩ <;>
      simp [correctResponsesFor, pairResponsesFor, h0]
  | step s userId userName choice channelId questionId res s' hr hsub ih =>
    obtain ⟨ih1, ih2⟩ := ih
    rcases submit_db_responses s userId userName choice channelId questionId
        res s' hsub with hsame | ⟨q, resp, hq, hfc, hans, happ, hqid, huid⟩
    · refine ⟨fun qid => ?_, fun qid uid => ?_⟩
      · unfold correctResponsesFor at ih1 ⊢
        rw [hsame]
        exact ih1 qid
      · unfold pairResponsesFor at ih2 ⊢
        rw [hsame]
        exact ih2 qid uid
    · refine ⟨fun qid => ?_, fun qid uid => ?_⟩
      · unfold correctResponsesFor at ih1 ⊢
        rw [happ, List.filter_append, List.length_append]
        by_cases hq2 : qid = q.id
        · have hempty :
              s.db.responses.filter
                (fun r => r.question_id == qid && r.is_correct == 1) = [] := by
            have h0 := (get_first_none_iff s.db q.id).mp hfc
            unfold correctResponsesFor at h0
            rw [hq2]
            exact h0
          rw [hempty]
          have : ([resp].filter
              (fun r => r.question_id == qid && r.is_correct == 1)).length ≤
              [resp].length := List.length_filter_le _ _
          simpa using this
        · have hrespf : ([resp].filter
              (fun r => r.question_id == qid && r.is_correct == 1)) = [] := by
            simp [hqid, Ne.symm hq2]
          rw [hrespf]
          simpa using ih1 qid
      · unfold pairResponsesFor at ih2 ⊢
        rw [happ, List.filter_append, List.length_append]
        by_cases hpair : qid = q.id ∧ uid = userId
        · obtain ⟨h1, h2⟩ := hpair
          have hempty :
              s.db.responses.filter
                (fun r => r.question_id == qid && r.user_id == uid) = [] := by
            have h0 := (has_user_answered_eq_false_iff s.db q.id userId).mp hans
            unfold pairResponsesFor at h0
            rw [h1, h2]
            exact h0
          rw [hempty]
          have : ([resp].filter
              (fun r => r.question_id == qid && r.user_id == uid)).length ≤
              [resp].length := List.length_filter_le _ _
          simpa using this
        · have hrespf : ([resp].filter
              (fun r => r.question_id == qid && r.user_id == uid)) = [] := by
            rcases not_and_or.mp hpair with hne | hne
            · simp [hqid, Ne.symm hne]
            · simp [huid, Ne.symm hne]
          rw [hrespf]
          simpa using ih2 qid uid

/-- C1: in every state reachable by a sequence of answer submissions, each
question has at most one Response with `is_correct = 1`; such a Response is
what `get_first_correct_response` returns and is chronologically no later
than any correct response; and once a correct response exists, any further
submission resolving to that question returns `already_solved` naming that
responder and records nothing. -/
theorem C1_at_most_one_winner (s : CogState) (h : Reachable s) :
    (∀ qid, (correctResponsesFor s.db qid).length ≤ 1) ∧
    (∀ qid r, r ∈ s.db.responses → r.question_id = qid → r.is_correct = 1 →
      get_first_correct_response s.db qid = some r ∧
      (∀ r' ∈ s.db.responses, r'.question_id = qid → r'.is_correct = 1 →
        r.answered_at ≤ r'.answered_at)) ∧
    (∀ userId userName choice channelId questionId res s',
      submit_answer s userId userName choice channelId questionId =
        .ok (res, s') →
      ∀ q fc, res.question = some q →
        get_first_correct_response s.db q.id = some fc →
        res.status = "already_solved" ∧ res.solver_id = some fc.user_id ∧
        s'.db.responses = s.db.responses) := by
  have hinv := reachable_response_invariants s h
  refine ⟨hinv.1, ?_, ?_⟩
  · intro qid r hmem hqid hic
    have hr : r ∈ correctResponsesFor s.db qid := by
      unfold correctResponsesFor
      rw [List.mem_filter]
      exact ⟨hmem, by simp [hqid, hic]⟩
    have hsingle : correctResponsesFor s.db qid = [r] :=
      length_le_one_mem _ _ (hinv.1 qid) hr
    refine ⟨get_first_of_single s.db qid r hsingle, ?_⟩
    intro r' hmem' hqid' hic'
    have hr' : r' ∈ correctResponsesFor s.db qid := by
      unfold correctResponsesFor
      rw [List.mem_filter]
      exact ⟨hmem', by simp [hqid', hic']⟩
    rw [hsingle] at hr'
    simp only [List.mem_singleton] at hr'
    rw [hr']
  · intro userId userName choice channelId questionId res s' hsub q fc hq hfc
    rcases submit_answer_spec s userId userName choice channelId questionId
        res s' hsub with ⟨_, hnone, _, _⟩ |
      ⟨q0, ch, cog1, meta, q', cog2, _, _, _, _, _, _, _, _, _, hq', hbr⟩
    · rw [hnone] at hq
      exact absurd hq (by simp)
    · rw [hq'] at hq
      simp only [Option.some.injEq] at hq
      subst hq
      rcases hbr with ⟨fc', hfc', hstat, hsolver, hdb, _⟩ |
        ⟨hfcn, _, _, _, _⟩ | ⟨db2, resp, hfcn, _, _, _, _⟩
      · rw [hfc'] at hfc
        simp only [Option.some.injEq] at hfc
        subst hfc
        exact ⟨hstat, hsolver, by rw [hdb]⟩
      · rw [hfcn] at hfc
        exact absurd hfc (by simp)
      · rw [hfcn] at hfc
        exact absurd hfc (by simp)

def C1wq : QuestionRow :=
  ⟨1, none, some 5, "t", "p", [("A", "x")], some "A", none, 0⟩

def C1ws : CogState := ⟨⟨[], [C1wq], [], 0⟩, [(5, 1)], []⟩

/-- Witness for C1 at a concrete reachable state. -/
theorem C1_at_most_one_winner_witness :
    (correctResponsesFor C1ws.db 1).length ≤ 1 :=
  (C1_at_most_one_winner C1ws (Reachable.init C1ws rfl)).1 1

lemma latestByCreatedAt_mem_aux (l : List QuestionRow) :
    ∀ (acc : Option QuestionRow) (c : QuestionRow),
      (l.foldl (fun acc q =>
        match acc with
        | none => some q
        | some b => if q.created_at > b.created_at then some q else some b) acc) =
        some c →
      acc = some c ∨ c ∈ l := by
  induction l with
  | nil =>
    intro acc c h
    exact Or.inl h
  | cons q rest ih =>
    intro acc c h
    rw [List.foldl_cons] at h
    rcases ih _ c h with h2 | h2
    · cases acc with
      | none =>
        simp only [Option.some.injEq] at h2
        exact Or.inr (h2 ▸ List.mem_cons_self q rest)
      | some b =>
        simp only [] at h2
        split at h2
        · simp only [Option.some.injEq] at h2
          exact Or.inr (h2 ▸ List.mem_cons_self q rest)
        · exact Or.inl (by rw [h2])
    · exact Or.inr (List.mem_cons_of_mem _ h2)

lemma get_latest_mem (db : DBState) (ch : Int) (q : QuestionRow)
    (h : get_latest_question_for_channel db ch = some q) : q ∈ db.questions := by
  unfold get_latest_question_for_channel latestByCreatedAt at h
  rcases latestByCreatedAt_mem_aux _ none q h with h2 | h2
  · exact absurd h2 (by simp)
  · exact List.mem_of_mem_filter h2

lemma get_question_of_mem_unique (db : DBState) (q : QuestionRow)
    (hmem : q ∈ db.questions)
    (hids : ∀ q1 ∈ db.questions, ∀ q2 ∈ db.questions, q1.id = q2.id → q1 = q2) :
    get_question db q.id = some q := by
  unfold get_question
  have hsome : (db.questions.find? (fun x => x.id == q.id)).isSome := by
    rw [List.find?_isSome]
    exact ⟨q, hmem, by simp⟩
  obtain ⟨q', hq'⟩ := Option.isSome_iff_exists.mp hsome
  have hq'mem : q' ∈ db.questions := List.mem_of_find?_eq_some hq'
  have hq'id : q'.id = q.id := by simpa using List.find?_some hq'
  rw [hq', hids q' hq'mem q hmem hq'id]

/-- The value hydration would register for a channel: the id of the latest
question when it is fresh and unsolved, else nothing. -/
def hydratedEntry (db : DBState) (ch : Int) (now : Nat) : Option Nat :=
  match get_latest_question_for_channel db ch with
  | none => none
  | some q =>
    if (now - q.created_at) / 86400 < 1 then
      match get_first_correct_response db q.id with
      | some _ => none
      | none => some q.id
    else none

lemma hydrateStep_db (now : Nat) (c : CogState) (ch : Int) :
    (hydrateStep now c ch).db = c.db := by
  unfold hydrateStep
  cases hl : get_latest_question_for_channel c.db ch with
  | none => rfl
  | some q =>
    by_cases hf : (now - q.created_at) / 86400 < 1
    · cases hfc : get_first_correct_response c.db q.id with
      | none => simp [hf, hfc, get_question_metadata_db]
      | some fc => simp [hf, hfc]
    · simp [hf]

lemma hydrateStep_active (now : Nat) (c : CogState) (ch : Int) :
    (hydrateStep now c ch).active_questions =
      match hydratedEntry c.db ch now with
      | some qid => dictPut c.active_questions ch qid
      | none => c.active_questions := by
  unfold hydrateStep hydratedEntry
  cases hl : get_latest_question_for_channel c.db ch with
  | none => rfl
  | some q =>
    by_cases hf : (now - q.created_at) / 86400 < 1
    · cases hfc : get_first_correct_response c.db q.id with
      | none => simp [hf, hfc, get_question_metadata_active]
      | some fc => simp [hf, hfc]
    · simp [hf]

lemma hydrate_db (cog : CogState) (channels : List Int) (now : Nat) :
    (hydrate_active_questions cog channels now).db = cog.db := by
  induction channels generalizing cog with
  | nil => rfl
  | cons ch rest ih =>
    unfold hydrate_active_questions at ih ⊢
    rw [List.foldl_cons, ih (hydrateStep now cog ch)]
    exact hydrateStep_db now cog ch

lemma hydrate_active_get (cog : CogState) (channels : List Int) (now : Nat)
    (ch : Int) :
    dictGet (hydrate_active_questions cog channels now).active_questions ch =
      if ch ∈ channels then
        match hydratedEntry cog.db ch now with
        | some qid => some qid
        | none => dictGet cog.active_questions ch
      else dictGet cog.active_questions ch := by
  induction channels generalizing cog with
  | nil => simp [hydrate_active_questions]
  | cons c rest ih =>
    unfold hydrate_active_questions at ih ⊢
    rw [List.foldl_cons, ih (hydrateStep now cog c), hydrateStep_db]
    by_cases hmem : ch ∈ rest
    · rw [if_pos hmem, if_pos (List.mem_cons_of_mem c hmem)]
      cases hhe : hydratedEntry cog.db ch now with
      | some qid => rfl
      | none =>
        rw [hydrateStep_active]
        cases hhe2 : hydratedEntry cog.db c now with
        | none => rfl
        | some qid2 =>
          by_cases hcc : ch = c
          · rw [hcc] at hhe
            rw [hhe] at hhe2
            simp at hhe2
          · exact dictGet_put_other _ _ _ _ hcc
    · rw [if_neg hmem]
      by_cases hc : ch = c
      · subst hc
        rw [if_pos (List.mem_cons_self ch rest)]
        rw [hydrateStep_active]
        cases hhe : hydratedEntry cog.db ch now with
        | some qid => exact dictGet_put_self _ _ _
        | none => rfl
      · rw [if_neg (by simp [hc, hmem])]
        rw [hydrateStep_active]
        cases hhe : hydratedEntry cog.db c now with
        | some qid => exact dictGet_put_other _ _ _ _ hc
        | none => rfl

/-- C2 (amended): starting from an empty runtime index over any pre-seeded
database (with distinct, nonzero question ids), `hydrate()` followed by
`resolveActive(channel)` returns the id of the channel's latest question
when that question is fresh (under 24 hours) and unsolved.  When the latest
question is stale or already solved, hydration registers nothing for the
channel -- but `resolveActive` does not return no question: its defensive
latest-for-channel fallback adopts and returns that same latest question
anyway (see the counterexample to the claim as literally stated).  Only a
channel with no stored question at all resolves to no active question. -/
theorem C2_hydrate_then_resolve (db : DBState) (channels : List Int) (now : Nat)
    (ch : Int) (hch : ch ∈ channels)
    (hids : ∀ q1 ∈ db.questions, ∀ q2 ∈ db.questions, q1.id = q2.id → q1 = q2) :
    (∀ q, get_latest_question_for_channel db ch = some q →
      (now - q.created_at) / 86400 < 1 →
      get_first_correct_response db q.id = none →
      q.id ≠ 0 →
      ∃ q', (resolve_question_for_channel
          (hydrate_active_questions ⟨db, [], []⟩ channels now) ch).1 = some q' ∧
        q'.id = q.id) ∧
    (∀ q, get_latest_question_for_channel db ch = some q →
      (¬ (now - q.created_at) / 86400 < 1 ∨
        get_first_correct_response db q.id ≠ none) →
      dictGet (hydrate_active_questions
          ⟨db, [], []⟩ channels now).active_questions ch = none ∧
      ∃ q', (resolve_question_for_channel
          (hydrate_active_questions ⟨db, [], []⟩ channels now) ch).1 = some q' ∧
        q'.id = q.id) ∧
    (get_latest_question_for_channel db ch = none →
      (resolve_question_for_channel
        (hydrate_active_questions ⟨db, [], []⟩ channels now) ch).1 = none) := by
  have hdbeq : (hydrate_active_questions ⟨db, [], []⟩ channels now).db = db :=
    hydrate_db ⟨db, [], []⟩ channels now
  refine ⟨?_, ?_, ?_⟩
  · intro q hl hfresh hfc hid0
    have hentry : hydratedEntry db ch now = some q.id := by
      unfold hydratedEntry
      rw [hl]
      simp only []
      rw [if_pos hfresh, hfc]
    have hget : dictGet (hydrate_active_questions
        ⟨db, [], []⟩ channels now).active_questions ch = some q.id := by
      rw [hydrate_active_get]
      simp only []
      rw [if_pos hch, hentry]
    have htr : resolveTracked
        (hydrate_active_questions ⟨db, [], []⟩ channels now) ch = some q := by
      unfold resolveTracked
      rw [hget]
      simp only []
      rw [if_pos hid0, hdbeq]
      exact get_question_of_mem_unique db q (get_latest_mem db ch q hl) hids
    have hra : resolveAdopt
        (hydrate_active_questions ⟨db, [], []⟩ channels now) ch =
        (some q, hydrate_active_questions ⟨db, [], []⟩ channels now) := by
      unfold resolveAdopt
      rw [htr]
    have hres : (resolve_question_for_channel
        (hydrate_active_questions ⟨db, [], []⟩ channels now) ch).1 =
        some (get_question_metadata
          (hydrate_active_questions ⟨db, [], []⟩ channels now) q).2.1 := by
      unfold resolve_question_for_channel
      rw [hra]
    exact ⟨_, hres, (get_question_metadata_fields _ q).1⟩
  · intro q hl hbad
    have hentry : hydratedEntry db ch now = none := by
      unfold hydratedEntry
      rw [hl]
      simp only []
      by_cases hfresh : (now - q.created_at) / 86400 < 1
      · rw [if_pos hfresh]
        rcases hbad with hb | hb
        · exact absurd hfresh hb
        · cases hfc2 : get_first_correct_response db q.id with
          | none => exact absurd hfc2 hb
          | some fc => rfl
      · rw [if_neg hfresh]
    have hget : dictGet (hydrate_active_questions
        ⟨db, [], []⟩ channels now).active_questions ch = none := by
      rw [hydrate_active_get]
      simp only []
      rw [if_pos hch, hentry]
      rfl
    have htr : resolveTracked
        (hydrate_active_questions ⟨db, [], []⟩ channels now) ch = none := by
      unfold resolveTracked
      rw [hget]
    have hra : resolveAdopt
        (hydrate_active_questions ⟨db, [], []⟩ channels now) ch =
        (some q, { hydrate_active_questions ⟨db, [], []⟩ channels now with
          active_questions := dictPut (hydrate_active_questions
            ⟨db, [], []⟩ channels now).active_questions ch q.id }) := by
      unfold resolveAdopt
      rw [htr]
      simp only []
      rw [show get_latest_question_for_channel
        (hydrate_active_questions ⟨db, [], []⟩ channels now).db ch = some q from
        by rw [hdbeq]; exact hl]
    have hres : (resolve_question_for_channel
        (hydrate_active_questions ⟨db, [], []⟩ channels now) ch).1 =
        some (get_question_metadata
          { hydrate_active_questions ⟨db, [], []⟩ channels now with
            active_questions := dictPut (hydrate_active_questions
              ⟨db, [], []⟩ channels now).active_questions ch q.id } q).2.1 := by
      unfold resolve_question_for_channel
      rw [hra]
    exact ⟨hget, _, hres, (get_question_metadata_fields _ q).1⟩
  · intro hl
    have hentry : hydratedEntry db ch now = none := by
      unfold hydratedEntry
      rw [hl]
    have hget : dictGet (hydrate_active_questions
        ⟨db, [], []⟩ channels now).active_questions ch = none := by
      rw [hydrate_active_get]
      simp only []
      rw [if_pos hch, hentry]
      rfl
    have htr : resolveTracked
        (hydrate_active_questions ⟨db, [], []⟩ channels now) ch = none := by
      unfold resolveTracked
      rw [hget]
    have hra : resolveAdopt
        (hydrate_active_questions ⟨db, [], []⟩ channels now) ch =
        (none, hydrate_active_questions ⟨db, [], []⟩ channels now) := by
      unfold resolveAdopt
      rw [htr]
      simp only []
      rw [show get_latest_question_for_channel
        (hydrate_active_questions ⟨db, [], []⟩ channels now).db ch = none from
        by rw [hdbeq]; exact hl]
    unfold resolve_question_for_channel
    rw [hra]

def C2wq : QuestionRow :=
  ⟨1, none, some 5, "t", "p", [("A", "x")], some "A", none, 50⟩

def C2wdb : DBState := ⟨[], [C2wq], [], 0⟩

/-- Witness for C2: a fresh unsolved latest question is returned after
hydration. -/
theorem C2_hydrate_then_resolve_witness :
    ∃ q', (resolve_question_for_channel
        (hydrate_active_questions ⟨C2wdb, [], []⟩ [5] 100) 5).1 = some q' ∧
      q'.id = C2wq.id :=
  (C2_hydrate_then_resolve C2wdb [5] 100 5 (by decide) (by decide)).1 C2wq
    (by decide) (by decide) (by decide) (by decide)

def C2cq : QuestionRow :=
  ⟨1, none, some 5, "t", "p", [("A", "x")], some "A", none, 0⟩

def C2cdb : DBState := ⟨[], [C2cq], [], 0⟩

/-- Counterexample to C2 as literally stated: the channel's latest question
is a day old (stale), hydration registers nothing -- yet `resolveActive`
still returns it through its latest-for-channel fallback instead of
returning no active question. -/
theorem C2_counterexample :
    ¬ ((100000 - C2cq.created_at) / 86400 < 1) ∧
    get_latest_question_for_channel C2cdb 5 = some C2cq ∧
    dictGet (hydrate_active_questions
      ⟨C2cdb, [], []⟩ [5] 100000).active_questions 5 = none ∧
    (resolve_question_for_channel
      (hydrate_active_questions ⟨C2cdb, [], []⟩ [5] 100000) 5).1 = some C2cq := by
  decide

/-! ### Question source model (src/services/groq_client.py)

`generate_question` (lines 250-385) is modelled as a function of the
non-deterministic inputs the code draws at run time: the topic hint, the
randomly chosen topic and target difficulty, whether any provider clients
were initialised (`self._clients`), and the (already shuffled and
`max_retries`-truncated) list of attempted models paired with each
attempt's outcome.  An outcome is `failure` for everything the code
catches and logs before validation (no client for the model, API error at
lines 332-336, IndexError/KeyError/ValueError/TypeError while reading and
json-decoding the response at lines 338-348), or `parsed` carrying the
decoded JSON value itself.  The validation at lines 350-378 runs outside
any try block, so the model keeps JSON-value fidelity there:
`parsed.get` (line 351) raises AttributeError when the decoded value is
not an object, `len(options)` (line 352) raises TypeError when a truthy
options value has no length (a number or boolean), `.strip()` (line 358)
raises AttributeError when the answer value is not a string, and
`options.items()` (line 373) raises AttributeError when a four-element
non-object options value (a string or an array) survived the length
check.  Those uncaught exceptions are modelled as `Except.error`. -/

/-- C7: the answer-normalization function maps `"b)"` to `"B"`, `"Option C"`
to `"C"`, `"3"` to `"C"`, `"  d "` to `"D"`, and `"banana"` to `"BANANA"`
(an unrecognized token equal to none of A-D); numeric tokens `"1"`-`"4"` map
positionally to `"A"`-`"D"` and recognition is case-insensitive. -/
theorem C7_answer_normalisation :
    normalise_answer "b)" = "B" ∧
    normalise_answer "Option C" = "C" ∧
    normalise_answer "3" = "C" ∧
    normalise_answer "  d " = "D" ∧
    normalise_answer "banana" = "BANANA" ∧
    (normalise_answer "banana" ≠ "A" ∧ normalise_answer "banana" ≠ "B" ∧
      normalise_answer "banana" ≠ "C" ∧ normalise_answer "banana" ≠ "D") ∧
    normalise_answer "1" = "A" ∧
    normalise_answer "2" = "B" ∧
    normalise_answer "4" = "D" ∧
    normalise_answer "a" = "A" ∧
    normalise_answer "B" = "B" ∧
    normalise_answer "choice d" = "D" ∧
    normalise_answer "option 2" = "B" := by
  decide
